import Mathlib

/-!
Verification of the modelling layer used by the agnpy tutorial notebooks:
attenuation factors for γγ absorption, particle-distribution evaluation and
normalization constructors, target photon fields, the emission-line ratio
table, and the emission region (blob).

The repository consists of notebooks that call into an external radiative
library; the bodies of the called functions are not part of the repository
sources, so they are modelled here from the specification (and from the
closed-form expressions the notebooks themselves state and evaluate inline).
-/

namespace AgnpyTutorial

noncomputable section

open Real Filter Set Topology

/-- Modelled from the spec: the method `Absorption.absorption` of the external
library is not under src/; the notebooks only call it and also evaluate the same
formula inline as `np.exp(-taus)`.  The external-field attenuation (transmitted
fraction) for optical depth `τ` is `exp (-τ)`. -/
def absorption (τ : ℝ) : ℝ := Real.exp (-τ)

/-- Modelled from the spec: the method `Absorption.absorption_homogeneous` of the
external library is not under src/; the notebooks only call it and also evaluate
the same formula inline as `(1 - np.exp(-taus)) / taus`.  The internal
(homogeneous-sphere) attenuation for optical depth `τ` is `(1 - exp (-τ)) / τ`,
with the limit value `1` returned at `τ = 0` so that no division by zero is
performed. -/
def absorption_homogeneous (τ : ℝ) : ℝ :=
  if τ = 0 then 1 else (1 - Real.exp (-τ)) / τ

/-- C1: for every optical depth `τ ≥ 0` the internal (homogeneous-sphere)
attenuation returns the transmitted fraction `(1 - exp (-τ)) / τ` whenever
`τ ≠ 0`, and returns the limit value `1` at `τ = 0`; the dividing branch is
taken only when the divisor is nonzero. -/
theorem absorption_homogeneous_piecewise (τ : ℝ) (_hτ : 0 ≤ τ) :
    (τ ≠ 0 → absorption_homogeneous τ = (1 - Real.exp (-τ)) / τ) ∧
    absorption_homogeneous 0 = 1 := by
  refine ⟨fun h => ?_, ?_⟩
  · simp [absorption_homogeneous, h]
  · simp [absorption_homogeneous]

/-- Witness for C1 at the concrete optical depth `τ = 2`. -/
theorem absorption_homogeneous_piecewise_witness :
    ((2 : ℝ) ≠ 0 → absorption_homogeneous 2 = (1 - Real.exp (-2)) / 2) ∧
    absorption_homogeneous 0 = 1 :=
  absorption_homogeneous_piecewise 2 (by norm_num)

/-- Taylor-series bounds on `exp (-1/2)`, used to check the reference
attenuation values quoted by the spec. -/
theorem exp_neg_half_bounds :
    (0.6065304 : ℝ) < Real.exp (-(1/2)) ∧ Real.exp (-(1/2)) < 0.6065307 := by
  have habs : |(-(1/2) : ℝ)| = 1/2 := by
    rw [abs_neg]; exact abs_of_nonneg (by norm_num)
  have h := @Real.exp_bound (-(1/2)) (by rw [habs]; norm_num) 8 (by norm_num)
  have hs : (∑ m ∈ Finset.range 8, (-(1/2 : ℝ)) ^ m / (Nat.factorial m : ℝ)) =
      78257 / 129024 := by
    simp [Finset.sum_range_succ, Nat.factorial]
    norm_num
  rw [hs] at h
  have h' : |Real.exp (-(1/2)) - 78257 / 129024| ≤ 1 / 9175040 := by
    refine h.trans ?_
    rw [habs]
    norm_num [Nat.factorial]
  rw [abs_le] at h'
  constructor
  · linarith [h'.1]
  · linarith [h'.2]

/-- C2: the external attenuation equals `exp (-τ)` for every optical depth, and
its values at `τ = 0, 0.5, 1, 5, 10` match the reference values
`1.0, 0.6065, 0.3679, 0.0067, 0.0000454` to the stated precision. -/
theorem absorption_reference_values :
    (∀ τ : ℝ, absorption τ = Real.exp (-τ)) ∧
    absorption 0 = 1 ∧
    |absorption 0.5 - 0.6065| < 5e-5 ∧
    |absorption 1 - 0.3679| < 5e-5 ∧
    |absorption 5 - 0.0067| < 5e-5 ∧
    |absorption 10 - 0.0000454| < 5e-8 := by
  obtain ⟨hlo, hhi⟩ := exp_neg_half_bounds
  have hE0 : (0 : ℝ) ≤ 0.6065304 := by norm_num
  have h2 : Real.exp (-1 : ℝ) = Real.exp (-(1/2)) ^ 2 := by
    rw [← Real.exp_nat_mul]; norm_num
  have h10 : Real.exp (-5 : ℝ) = Real.exp (-(1/2)) ^ 10 := by
    rw [← Real.exp_nat_mul]; norm_num
  have h20 : Real.exp (-10 : ℝ) = Real.exp (-(1/2)) ^ 20 := by
    rw [← Real.exp_nat_mul]; norm_num
  have lo2 : (0.6065304 : ℝ) ^ 2 < Real.exp (-(1/2)) ^ 2 :=
    pow_lt_pow_left₀ hlo hE0 (by norm_num)
  have hi2 : Real.exp (-(1/2)) ^ 2 < (0.6065307 : ℝ) ^ 2 :=
    pow_lt_pow_left₀ hhi (Real.exp_pos _).le (by norm_num)
  have lo10 : (0.6065304 : ℝ) ^ 10 < Real.exp (-(1/2)) ^ 10 :=
    pow_lt_pow_left₀ hlo hE0 (by norm_num)
  have hi10 : Real.exp (-(1/2)) ^ 10 < (0.6065307 : ℝ) ^ 10 :=
    pow_lt_pow_left₀ hhi (Real.exp_pos _).le (by norm_num)
  have lo20 : (0.6065304 : ℝ) ^ 20 < Real.exp (-(1/2)) ^ 20 :=
    pow_lt_pow_left₀ hlo hE0 (by norm_num)
  have hi20 : Real.exp (-(1/2)) ^ 20 < (0.6065307 : ℝ) ^ 20 :=
    pow_lt_pow_left₀ hhi (Real.exp_pos _).le (by norm_num)
  refine ⟨fun τ => rfl, ?_, ?_, ?_, ?_, ?_⟩
  · simp [absorption]
  · have : absorption 0.5 = Real.exp (-(1/2)) := by norm_num [absorption]
    rw [this, abs_lt]
    constructor <;> linarith
  · have : absorption 1 = Real.exp (-(1/2)) ^ 2 := by rw [← h2]; norm_num [absorption]
    rw [this, abs_lt]
    have n1 : (0.36787912 : ℝ) < (0.6065304 : ℝ) ^ 2 := by norm_num
    have n2 : ((0.6065307 : ℝ)) ^ 2 < 0.36787950 := by norm_num
    constructor <;> linarith
  · have : absorption 5 = Real.exp (-(1/2)) ^ 10 := by rw [← h10]; norm_num [absorption]
    rw [this, abs_lt]
    have n1 : (0.006737918 : ℝ) < (0.6065304 : ℝ) ^ 10 := by norm_num
    have n2 : ((0.6065307 : ℝ)) ^ 10 < 0.006737952 := by norm_num
    constructor <;> linarith
  · have : absorption 10 = Real.exp (-(1/2)) ^ 20 := by rw [← h20]; norm_num [absorption]
    rw [this, abs_lt]
    have n1 : (0.0000453995 : ℝ) < (0.6065304 : ℝ) ^ 20 := by norm_num
    have n2 : ((0.6065307 : ℝ)) ^ 20 < 0.0000453999991 := by norm_num
    constructor <;> linarith

/-- Total external optical depth of a collection of external photon fields: the
notebook forms it as the sum of the per-field optical depths. -/
def tau_ext (taus : List ℝ) : ℝ := taus.sum

/-- C4: for every finite collection of per-field optical depths, applying the
external attenuation to the summed optical depth equals the product of the
per-field external attenuations. -/
theorem absorption_sum_eq_prod (taus : List ℝ) :
    absorption (tau_ext taus) = (taus.map absorption).prod := by
  induction taus with
  | nil => simp [tau_ext, absorption]
  | cons t ts ih =>
      have step : absorption (t + tau_ext ts) =
          absorption t * absorption (tau_ext ts) := by
        simp [absorption, neg_add, Real.exp_add, mul_comm]
      calc absorption (tau_ext (t :: ts)) = absorption (t + tau_ext ts) := by
            simp [tau_ext]
        _ = absorption t * absorption (tau_ext ts) := step
        _ = absorption t * (ts.map absorption).prod := by rw [ih]
        _ = ((t :: ts).map absorption).prod := by simp

/-- Trapezoidal quadrature over an ordered list of sample points, mirroring the
`np.trapz` evaluations the notebooks use to check normalizations. -/
def trapz (f : ℝ → ℝ) : List ℝ → ℝ
  | x :: y :: rest => (y - x) * (f x + f y) / 2 + trapz f (y :: rest)
  | _ => 0

/-- Trapezoidal quadrature is linear in a constant factor of the integrand. -/
theorem trapz_smul (c : ℝ) (f : ℝ → ℝ) :
    ∀ l : List ℝ, trapz (fun x => c * f x) l = c * trapz f l
  | [] => by simp [trapz]
  | [x] => by simp [trapz]
  | x :: y :: rest => by
      have ih := trapz_smul c f (y :: rest)
      simp only [trapz, ih]
      ring

/-- Modelled from the spec: the constructor `from_total_density` of the external
library is not under src/.  It solves the scalar constant `k` so that the
quadrature of the distribution equals the requested total density. -/
def k_from_total_density (n_tot : ℝ) (f : ℝ → ℝ) (grid : List ℝ) : ℝ :=
  n_tot / trapz f grid

/-- Modelled from the spec: the constructor `from_total_energy_density` of the
external library is not under src/.  It solves `k` so that
`m c² ∫ γ k f(γ) dγ` equals the requested total energy density. -/
def k_from_total_energy_density (u_tot mc2 : ℝ) (f : ℝ → ℝ) (grid : List ℝ) : ℝ :=
  u_tot / (mc2 * trapz (fun γ => γ * f γ) grid)

/-- Modelled from the spec: the constructor `from_total_energy` of the external
library is not under src/.  It solves `k` so that `V m c² ∫ γ k f(γ) dγ` equals
the requested total energy, `V` being the region volume. -/
def k_from_total_energy (W V_b mc2 : ℝ) (f : ℝ → ℝ) (grid : List ℝ) : ℝ :=
  W / (V_b * mc2 * trapz (fun γ => γ * f γ) grid)

/-- Modelled from the spec: the constructor `from_density_at_gamma_1` of the
external library is not under src/.  It solves `k` so that the distribution
evaluated at `γ = 1` equals the requested density. -/
def k_from_density_at_gamma_1 (n1 : ℝ) (f : ℝ → ℝ) : ℝ := n1 / f 1

/-- C3: for every shape `f`, quadrature grid and normalization targets with
nonzero shape integrals, each alternate-normalization constructor solves `k`
so that the corresponding numerically integrated quantity reproduces the
requested target exactly, hence in particular within relative tolerance
`1e-3` for the from-total-energy-density constructor. -/
theorem normalization_round_trip (f : ℝ → ℝ) (grid : List ℝ)
    (n_tot u_tot W V_b mc2 n1 : ℝ)
    (hn : trapz f grid ≠ 0)
    (hu : mc2 * trapz (fun γ => γ * f γ) grid ≠ 0)
    (hW : V_b * mc2 * trapz (fun γ => γ * f γ) grid ≠ 0)
    (h1 : f 1 ≠ 0) :
    trapz (fun γ => k_from_total_density n_tot f grid * f γ) grid = n_tot ∧
    mc2 * trapz (fun γ => γ * (k_from_total_energy_density u_tot mc2 f grid * f γ))
        grid = u_tot ∧
    |mc2 * trapz (fun γ => γ * (k_from_total_energy_density u_tot mc2 f grid * f γ))
        grid - u_tot| ≤ 1e-3 * |u_tot| ∧
    V_b * mc2 * trapz (fun γ => γ * (k_from_total_energy W V_b mc2 f grid * f γ))
        grid = W ∧
    k_from_density_at_gamma_1 n1 f * f 1 = n1 := by
  have key : ∀ (c : ℝ),
      trapz (fun γ => γ * (c * f γ)) grid = c * trapz (fun γ => γ * f γ) grid := by
    intro c
    have heq : (fun γ => γ * (c * f γ)) = fun γ => c * (γ * f γ) := by
      funext γ; ring
    rw [heq, trapz_smul]
  have hT : trapz (fun γ => γ * f γ) grid ≠ 0 := by
    rcases mul_ne_zero_iff.mp hu with ⟨-, h⟩
    exact h
  have hm : mc2 ≠ 0 := by
    rcases mul_ne_zero_iff.mp hu with ⟨h, -⟩
    exact h
  have hVm : V_b * mc2 ≠ 0 := by
    rcases mul_ne_zero_iff.mp hW with ⟨h, -⟩
    exact h
  have part1 : trapz (fun γ => k_from_total_density n_tot f grid * f γ) grid
      = n_tot := by
    rw [trapz_smul, k_from_total_density, div_mul_cancel₀ _ hn]
  have part2 : mc2 * trapz
      (fun γ => γ * (k_from_total_energy_density u_tot mc2 f grid * f γ)) grid
      = u_tot := by
    rw [key, k_from_total_energy_density]
    field_simp
    ring
  have part4 : V_b * mc2 * trapz
      (fun γ => γ * (k_from_total_energy W V_b mc2 f grid * f γ)) grid = W := by
    rw [key, k_from_total_energy]
    have hVmT : V_b * mc2 * trapz (fun γ => γ * f γ) grid ≠ 0 := hW
    field_simp
    ring
  refine ⟨part1, part2, ?_, part4, ?_⟩
  · rw [part2]
    simp
    positivity
  · rw [k_from_density_at_gamma_1, div_mul_cancel₀ _ h1]

/-- Witness for C3: shape `f γ = γ` on the grid `[1, 2]` with all targets `1`;
the shape integral is `3/2` and the energy-shape integral is `5/2`. -/
theorem normalization_round_trip_witness :
    trapz (fun γ => k_from_total_density 1 (fun γ : ℝ => γ) [1, 2] * γ) [1, 2]
        = 1 ∧
    1 * trapz (fun γ => γ * (k_from_total_energy_density 1 1 (fun γ : ℝ => γ)
        [1, 2] * γ)) [1, 2] = 1 ∧
    |1 * trapz (fun γ => γ * (k_from_total_energy_density 1 1 (fun γ : ℝ => γ)
        [1, 2] * γ)) [1, 2] - 1| ≤ 1e-3 * |(1 : ℝ)| ∧
    1 * 1 * trapz (fun γ => γ * (k_from_total_energy 1 1 1 (fun γ : ℝ => γ)
        [1, 2] * γ)) [1, 2] = 1 ∧
    k_from_density_at_gamma_1 1 (fun γ : ℝ => γ) * 1 = 1 :=
  normalization_round_trip (fun γ : ℝ => γ) [1, 2] 1 1 1 1 1 1
    (by norm_num [trapz]) (by norm_num [trapz]) (by norm_num [trapz])
    (by norm_num)

/-- Particle-distribution variants of the tutorial: power law, broken power
law and log parabola, each carrying the normalization `k`, the spectral
parameters and the Lorentz-factor range. -/
inductive ParticleDistribution where
  | powerLaw (k p gamma_min gamma_max : ℝ)
  | brokenPowerLaw (k p1 p2 gamma_b gamma_min gamma_max : ℝ)
  | logParabola (k p q gamma_0 gamma_min gamma_max : ℝ)

/-- Lower end of the Lorentz-factor range of a particle distribution. -/
def gammaMin : ParticleDistribution → ℝ
  | .powerLaw _ _ g _ => g
  | .brokenPowerLaw _ _ _ _ g _ => g
  | .logParabola _ _ _ _ g _ => g

/-- Upper end of the Lorentz-factor range of a particle distribution. -/
def gammaMax : ParticleDistribution → ℝ
  | .powerLaw _ _ _ g => g
  | .brokenPowerLaw _ _ _ _ _ g => g
  | .logParabola _ _ _ _ _ g => g

/-- Analytic form of each distribution, as stated in the notebook: a power law
`k γ^(-p)`, a broken power law with `k` defined at the break, and a log
parabola with curvature `q` around `γ₀`. -/
def analyticForm : ParticleDistribution → ℝ → ℝ
  | .powerLaw k p _ _, γ => k * γ ^ (-p)
  | .brokenPowerLaw k p1 p2 gb _ _, γ =>
      if γ ≤ gb then k * (γ / gb) ^ (-p1) else k * (γ / gb) ^ (-p2)
  | .logParabola k p q g0 _ _, γ =>
      k * (γ / g0) ^ (-(p + q * Real.logb 10 (γ / g0)))

/-- Heaviside window `H(γ; γ_min, γ_max)` multiplying the analytic form, as in
the notebook formula `n(γ) = k γ^(-p) H(γ; γ_min, γ_max)`. -/
def heaviside (gmin gmax γ : ℝ) : ℝ := if gmin ≤ γ ∧ γ ≤ gmax then 1 else 0

/-- Density of a particle distribution at Lorentz factor `γ`: the analytic
form windowed by the Heaviside function of the notebook formula. -/
def evalDist (d : ParticleDistribution) (γ : ℝ) : ℝ :=
  heaviside (gammaMin d) (gammaMax d) γ * analyticForm d γ

/-- Density of a particle distribution over a sequence of Lorentz factors. -/
def evalSeq (d : ParticleDistribution) (γs : List ℝ) : List ℝ := γs.map (evalDist d)

/-- C5: for every distribution variant and every sequence of Lorentz factors,
evaluation returns the selected analytic form at each `γ` inside
`[γ_min, γ_max]` and exactly zero at each `γ` strictly below `γ_min` or
strictly above `γ_max`. -/
theorem evalDist_piecewise (d : ParticleDistribution) (γs : List ℝ) :
    evalSeq d γs = γs.map (evalDist d) ∧
    ∀ γ ∈ γs,
      (gammaMin d ≤ γ ∧ γ ≤ gammaMax d → evalDist d γ = analyticForm d γ) ∧
      (γ < gammaMin d ∨ gammaMax d < γ → evalDist d γ = 0) := by
  refine ⟨rfl, fun γ _ => ⟨fun h => ?_, fun h => ?_⟩⟩
  · simp [evalDist, heaviside, h.1, h.2]
  · rcases h with h | h
    · simp [evalDist, heaviside, not_le.mpr h]
    · simp [evalDist, heaviside, not_le.mpr h]

/-- Witness for C5: a power law with `k = 1`, `p = 2` on `[1, 10]`, evaluated
at `γ = 2` (inside the range) and `γ = 20` (above the range). -/
theorem evalDist_piecewise_witness :
    evalDist (ParticleDistribution.powerLaw 1 2 1 10) 2
        = analyticForm (ParticleDistribution.powerLaw 1 2 1 10) 2 ∧
    evalDist (ParticleDistribution.powerLaw 1 2 1 10) 20 = 0 := by
  constructor
  · exact ((evalDist_piecewise (ParticleDistribution.powerLaw 1 2 1 10)
      [2, 20]).2 2 (by simp)).1 (by norm_num [gammaMin, gammaMax])
  · exact ((evalDist_piecewise (ParticleDistribution.powerLaw 1 2 1 10)
      [2, 20]).2 20 (by simp)).2 (by norm_num [gammaMin, gammaMax])

/-- Unfolding of the internal attenuation away from `τ = 0`. -/
theorem absorption_homogeneous_of_ne {τ : ℝ} (h : τ ≠ 0) :
    absorption_homogeneous τ = (1 - Real.exp (-τ)) / τ := by
  simp [absorption_homogeneous, h]

/-- Derivative of the internal attenuation fraction at a positive optical
depth. -/
theorem internal_att_hasDerivAt {x : ℝ} (hx : 0 < x) :
    HasDerivAt (fun τ : ℝ => (1 - Real.exp (-τ)) / τ)
      ((Real.exp (-x) * x - (1 - Real.exp (-x)) * 1) / x ^ 2) x := by
  have hc : HasDerivAt (fun t : ℝ => 1 - Real.exp (-t)) (Real.exp (-x)) x := by
    have h1 : HasDerivAt (fun t : ℝ => Real.exp (-t)) (Real.exp (-x) * -1) x :=
      (Real.hasDerivAt_exp (-x)).comp x (hasDerivAt_neg x)
    have h2 := h1.const_sub 1
    simpa using h2
  have hd := hc.div (hasDerivAt_id x) hx.ne'
  simpa using hd

/-- C7: the internal attenuation tends to `1` as the optical depth tends to
`0` from above, tends to `0` as the optical depth tends to infinity, and is
strictly decreasing on positive optical depths. -/
theorem absorption_homogeneous_limits_and_monotone :
    Tendsto absorption_homogeneous (𝓝[>] (0 : ℝ)) (𝓝 1) ∧
    Tendsto absorption_homogeneous atTop (𝓝 0) ∧
    StrictAntiOn absorption_homogeneous (Ioi (0 : ℝ)) := by
  refine ⟨?_, ?_, ?_⟩
  · have hF : HasDerivAt (fun t : ℝ => 1 - Real.exp (-t)) 1 0 := by
      have h1 : HasDerivAt (fun t : ℝ => Real.exp (-t)) (Real.exp (-0 : ℝ) * -1) 0 :=
        (Real.hasDerivAt_exp (-0)).comp 0 (hasDerivAt_neg 0)
      have h2 := h1.const_sub 1
      simpa using h2
    have hslope := hasDerivAt_iff_tendsto_slope.mp hF
    have hmono : 𝓝[>] (0 : ℝ) ≤ 𝓝[≠] (0 : ℝ) :=
      nhdsWithin_mono 0 (fun x hx => by
        simp only [mem_compl_iff, mem_singleton_iff]
        exact ne_of_gt hx)
    have h0 : Tendsto (slope (fun t : ℝ => 1 - Real.exp (-t)) 0) (𝓝[>] (0 : ℝ))
        (𝓝 1) := hslope.mono_left hmono
    have heq : ∀ᶠ τ in 𝓝[>] (0 : ℝ),
        slope (fun t : ℝ => 1 - Real.exp (-t)) 0 τ = absorption_homogeneous τ := by
      filter_upwards [self_mem_nhdsWithin] with τ hτ
      have hτ0 : (0 : ℝ) < τ := hτ
      rw [slope_def_field, absorption_homogeneous_of_ne hτ0.ne']
      simp
    exact Filter.Tendsto.congr' heq h0
  · have hh : Tendsto (fun τ : ℝ => τ⁻¹) atTop (𝓝 (0 : ℝ)) := tendsto_inv_atTop_zero
    refine tendsto_of_tendsto_of_tendsto_of_le_of_le' tendsto_const_nhds hh ?_ ?_
    · filter_upwards [eventually_ge_atTop (1 : ℝ)] with τ hτ
      have hτ0 : (0 : ℝ) < τ := lt_of_lt_of_le one_pos hτ
      rw [absorption_homogeneous_of_ne hτ0.ne']
      have hle : Real.exp (-τ) ≤ 1 := Real.exp_le_one_iff.mpr (by linarith)
      exact div_nonneg (by linarith) hτ0.le
    · filter_upwards [eventually_ge_atTop (1 : ℝ)] with τ hτ
      have hτ0 : (0 : ℝ) < τ := lt_of_lt_of_le one_pos hτ
      rw [absorption_homogeneous_of_ne hτ0.ne', inv_eq_one_div]
      exact (div_le_div_iff_of_pos_right hτ0).mpr (by linarith [(Real.exp_pos (-τ)).le])
  · have hanti : StrictAntiOn (fun τ : ℝ => (1 - Real.exp (-τ)) / τ)
        (Ioi (0 : ℝ)) := by
      refine strictAntiOn_of_deriv_neg (convex_Ioi 0)
        (fun x hx => ((internal_att_hasDerivAt (mem_Ioi.mp hx)).continuousAt).continuousWithinAt)
        ?_
      intro x hx
      rw [interior_Ioi] at hx
      have hx0 : (0 : ℝ) < x := mem_Ioi.mp hx
      rw [(internal_att_hasDerivAt hx0).deriv]
      apply div_neg_of_neg_of_pos
      · have h1 : x + 1 < Real.exp x := Real.add_one_lt_exp hx0.ne'
        have h2 : Real.exp (-x) * Real.exp x = 1 := by
          rw [← Real.exp_add]; simp
        have h3 := mul_lt_mul_of_pos_left h1 (Real.exp_pos (-x))
        nlinarith [Real.exp_pos (-x)]
      · exact pow_pos hx0 2
    intro a ha b hb hab
    rw [absorption_homogeneous_of_ne (mem_Ioi.mp ha).ne',
      absorption_homogeneous_of_ne (mem_Ioi.mp hb).ne']
    exact hanti ha hb hab

/-- Entry of the shared emission-line table: the line wavelength (Å) and the
shell radius and line luminosity expressed as fractions of those of the
H-beta reference shell. -/
structure LineEntry where
  lambda_A : ℚ
  frac_R_Hbeta : ℚ
  frac_L_Hbeta : ℚ
deriving DecidableEq

/-- Modelled from the spec: the constant `lines_dictionary` of the external
library is not under src/; the notebooks read the entries for the Lyman-alpha,
H-alpha and H-beta lines, and the H-beta shell is the reference whose ratios
are `1`.  The non-reference ratio constants here are representative stand-ins
for the fixed table data; the lookup behaviour, not their values, is what the
claims exercise. -/
def lines_dictionary : List (String × LineEntry) :=
  [("Lyalpha", ⟨1215.67, 0.27, 11.8⟩),
   ("Halpha", ⟨6562.80, 1.94, 3.6⟩),
   ("Hbeta", ⟨4861.35, 1, 1⟩)]

/-- Lookup of a line name in the shared line table. -/
def lookupLine (name : String) : Option LineEntry :=
  lines_dictionary.lookup name

/-- Broad-line-region shell: disk luminosity, reprocessed fraction, line name
and shell radius. -/
structure SphericalShellBLR where
  L_disk : ℝ
  xi_line : ℝ
  line : String
  R_line : ℝ

/-- Modelled from the spec: the `SphericalShellBLR` constructor of the external
library is not under src/; per the spec it fails immediately with a lookup
error when the line name is not in the shared table. -/
def mkSphericalShellBLR (L ξ : ℝ) (name : String) (R : ℝ) :
    Option SphericalShellBLR :=
  match lookupLine name with
  | some _ => some ⟨L, ξ, name, R⟩
  | none => none

/-- C8: looking up a known line name returns its fixed table entry, looking up
a name not in the table returns the lookup failure, and constructing a
broad-line-region shell with an unknown line name therefore fails; the table
itself is a fixed constant never modified by any operation. -/
theorem lines_dictionary_lookup (name : String) :
    (name ∈ lines_dictionary.map Prod.fst →
      ∃ e, lookupLine name = some e ∧ (name, e) ∈ lines_dictionary) ∧
    (name ∉ lines_dictionary.map Prod.fst →
      lookupLine name = none ∧
      ∀ L ξ R, mkSphericalShellBLR L ξ name R = none) := by
  constructor
  · intro h
    simp only [lines_dictionary, List.map, List.mem_cons, List.not_mem_nil,
      or_false] at h
    rcases h with h | h | h
    · subst h; exact ⟨⟨1215.67, 0.27, 11.8⟩, rfl, by simp [lines_dictionary]⟩
    · subst h; exact ⟨⟨6562.80, 1.94, 3.6⟩, rfl, by simp [lines_dictionary]⟩
    · subst h; exact ⟨⟨4861.35, 1, 1⟩, rfl, by simp [lines_dictionary]⟩
  · intro h
    simp only [lines_dictionary, List.map, List.mem_cons, List.not_mem_nil,
      or_false, not_or] at h
    obtain ⟨h1, h2, h3⟩ := h
    have b1 : (name == "Lyalpha") = false := beq_eq_false_iff_ne.mpr h1
    have b2 : (name == "Halpha") = false := beq_eq_false_iff_ne.mpr h2
    have b3 : (name == "Hbeta") = false := beq_eq_false_iff_ne.mpr h3
    have hl : lookupLine name = none := by
      simp [lookupLine, lines_dictionary, List.lookup, b1, b2, b3]
    refine ⟨hl, fun L ξ R => ?_⟩
    simp [mkSphericalShellBLR, hl]

/-- Witness for C8: the known name H-beta resolves to its table entry, and the
unknown name FeX fails lookup and fails shell construction. -/
theorem lines_dictionary_lookup_witness :
    (∃ e, lookupLine "Hbeta" = some e ∧ ("Hbeta", e) ∈ lines_dictionary) ∧
    (lookupLine "FeX" = none ∧
      ∀ L ξ R, mkSphericalShellBLR L ξ "FeX" R = none) :=
  ⟨(lines_dictionary_lookup "Hbeta").1 (by decide),
   (lines_dictionary_lookup "FeX").2 (by decide)⟩

/-- Speed of light in cm/s, as used by the notebooks through astropy. -/
def c_light : ℝ := 2.99792458e10

/-- Modelled from the spec: the default dust-torus radius of the external
library is not under src/; per the notebook it is the sublimation radius of
Eq. 96 of the reference (Finke 2016):
`R_dt = 3.5e18 · sqrt(L_disk / 1e45 erg s⁻¹) · (T_dt / 1e3 K)^(-2.6) cm`. -/
def sublimation_radius (L_disk T_dt : ℝ) : ℝ :=
  3.5e18 * Real.sqrt (L_disk / 1e45) * (T_dt / 1e3) ^ (-(2.6 : ℝ))

/-- Ring dust torus: disk luminosity, reprocessed fraction, temperature and
ring radius. -/
structure RingDustTorus where
  L_disk : ℝ
  xi_dt : ℝ
  T_dt : ℝ
  R_dt : ℝ

/-- Dust torus constructed with the default (sublimation-formula) radius. -/
def mkRingDustTorusDefault (L ξ T : ℝ) : RingDustTorus :=
  ⟨L, ξ, T, sublimation_radius L T⟩

/-- Modelled from the spec: the galaxy-frame energy density `u(r)` of the ring
torus is not under src/; per the notebook's description the torus is a ring of
radius `R_dt` reprocessing the luminosity `ξ L_disk`, every point of the ring
being at distance `sqrt (R_dt² + r²)` from the point at height `r` on the jet
axis, giving `u(r) = ξ L_disk / (4 π c (R_dt² + r²))`. -/
def u_dt (dt : RingDustTorus) (r : ℝ) : ℝ :=
  dt.xi_dt * dt.L_disk / (4 * Real.pi * c_light * (dt.R_dt ^ 2 + r ^ 2))

/-- C9: the dust torus with disk luminosity `2e46 erg/s`, reprocessing
fraction `0.1`, temperature `1000 K` and the default sublimation radius has a
strictly larger galaxy-frame energy density at `r = 1e19 cm` than at
`r = 1e21 cm`. -/
theorem dust_torus_energy_density_decreasing :
    u_dt (mkRingDustTorusDefault 2e46 0.1 1e3) 1e19
      > u_dt (mkRingDustTorusDefault 2e46 0.1 1e3) 1e21 := by
  have h20 : (0 : ℝ) ≤ 20 := by norm_num
  have hRval : (mkRingDustTorusDefault 2e46 0.1 1e3).R_dt
      = 3.5e18 * Real.sqrt 20 := by
    simp only [mkRingDustTorusDefault, sublimation_radius]
    norm_num
  have hR2 : (mkRingDustTorusDefault 2e46 0.1 1e3).R_dt ^ 2 = 2.45e38 := by
    rw [hRval, mul_pow, Real.sq_sqrt h20]
    norm_num
  have hx : (mkRingDustTorusDefault 2e46 0.1 1e3).xi_dt = 0.1 := rfl
  have hL : (mkRingDustTorusDefault 2e46 0.1 1e3).L_disk = 2e46 := rfl
  have hc : (0 : ℝ) < c_light := by norm_num [c_light]
  have hpi := Real.pi_pos
  have hfac : (0 : ℝ) < 4 * Real.pi * c_light := by positivity
  simp only [u_dt, hx, hL, hR2, gt_iff_lt]
  apply div_lt_div_of_pos_left (by norm_num)
  · apply mul_pos hfac
    norm_num
  · apply mul_lt_mul_of_pos_left ?_ hfac
    norm_num

/-- Emission region (blob): radius, redshift, Doppler factor, bulk Lorentz
factor, magnetic field, an electron distribution and an optional proton
distribution. -/
structure Blob where
  R_b : ℝ
  z : ℝ
  delta_D : ℝ
  Gamma : ℝ
  B : ℝ
  n_e : ParticleDistribution
  n_p : Option ParticleDistribution

/-- Modelled from the spec: the `Blob` constructor of the external library is
not under src/; the notebooks construct `Blob(n_e=n_e)` with every other
physical parameter defaulted.  The default values are the tutorial's canonical
blob parameters: radius `1e16 cm`, redshift `0.069`, Doppler factor `10`,
bulk Lorentz factor `10`, magnetic field `1 G`, no proton distribution. -/
def blobFromNe (n : ParticleDistribution) : Blob :=
  ⟨1e16, 0.069, 10, 10, 1, n, none⟩

/-- Comoving volume of the spherical emission region. -/
def V_b (b : Blob) : ℝ := 4 / 3 * Real.pi * b.R_b ^ 3

/-- C10: a blob can be constructed from an electron distribution alone — every
other physical parameter takes its default value — and the resulting region
supports the derived-quantity and absorption operations: its volume is
positive and its stored distribution evaluates over any Lorentz-factor
sequence. -/
theorem blob_from_ne_defaults (n : ParticleDistribution) :
    (blobFromNe n).n_e = n ∧
    (blobFromNe n).R_b = 1e16 ∧ (blobFromNe n).z = 0.069 ∧
    (blobFromNe n).delta_D = 10 ∧ (blobFromNe n).Gamma = 10 ∧
    (blobFromNe n).B = 1 ∧ (blobFromNe n).n_p = none ∧
    0 < V_b (blobFromNe n) ∧
    ∀ γs : List ℝ, evalSeq (blobFromNe n).n_e γs = γs.map (evalDist n) := by
  refine ⟨rfl, rfl, rfl, rfl, rfl, rfl, rfl, ?_, fun γs => rfl⟩
  have hpi := Real.pi_pos
  simp only [V_b, blobFromNe]
  positivity

end

end AgnpyTutorial
